import Mathlib

/-!
Verification development for the HudlFileManager recipe-processor step.

The development shallowly embeds the body of HudlFileManager.main from
src/HudlFileManager.py, stage by stage, following the line ranges of the
source: input resolution (lines 93 to 110), destination purge (lines 113 to
123), filename canonicalization (lines 126 to 130), format dispatch and
extraction delegation (lines 132 to 155), and the disk-image locator with the
final check (lines 160 to 171).  Paths are modelled after
pathlib.PurePosixPath values, directory children as entries carrying the
results of the is_dir and is_symlink tests, and the configuration environment
as a record of optional string options.  The method get_archive_format is
inherited from autopkglib.Unarchiver and its body is not part of this
repository; it is modelled from the specification, as marked on its
definition.
-/

set_option autoImplicit false

namespace HudlFileManager

/-- Boolean test that the string s ends with the string t, embedding the Python
test used by suffix matching and by fnmatch style glob filtering. -/
def endswith (s t : String) : Bool := decide (t.data <:+ s.data)

/-- Characters of s strictly before the first question mark, embedding the
Python expression name.split with a question mark separator, first element. -/
def before_query (s : String) : String := ⟨s.data.takeWhile (fun c => c ≠ '?')⟩

/-- Boolean test that s contains a question mark character. -/
def has_query (s : String) : Bool := s.data.any (fun c => c == '?')

/-- Boolean test that s begins with a dot, marking a hidden directory entry. -/
def starts_dot (s : String) : Bool := decide (('.' :: []) <+: s.data)

/-- Shallow embedding of a pathlib.PurePosixPath value: an absolute flag plus
the list of path components.  In a well formed path every component is a
nonempty string free of slashes. -/
structure PPath where
  absolute : Bool
  components : List String
  deriving DecidableEq, Repr

/-- Final component of the path, the pathlib name property; empty for a path
with no components. -/
def PPath.name (p : PPath) : String := (p.components.getLast?).getD ""

/-- Logical parent of the path, the pathlib parent property: the parent of the
root is the root and the parent of a bare relative name is the empty relative
path. -/
def PPath.parent (p : PPath) : PPath := ⟨p.absolute, p.components.dropLast⟩

/-- Joining one path onto another, embedding one step of pathlib joinpath:
joining an absolute path discards everything to its left. -/
def PPath.join (p q : PPath) : PPath :=
  if q.absolute then q else ⟨p.absolute, p.components ++ q.components⟩

/-- Joining a single slash free filename segment, embedding the pathlib
treatment of a plain string argument of joinpath: an empty segment contributes
nothing. -/
def PPath.joinSeg (p : PPath) (s : String) : PPath :=
  if s = "" then p else ⟨p.absolute, p.components ++ [s]⟩

/-- Slash separated concatenation of path components, the worker for rendering
a path the way str renders a PurePosixPath. -/
def joinComps : List String → String
  | [] => ""
  | [c] => c
  | c :: c2 :: rest => c ++ "/" ++ joinComps (c2 :: rest)

/-- Rendering of a path to a string as str does on a PurePosixPath: absolute
paths gain a leading slash and the empty relative path renders as a dot. -/
def render (p : PPath) : String :=
  if p.absolute then "/" ++ joinComps p.components
  else if p.components = [] then "." else joinComps p.components

/-- Embedding of the pathlib suffix property of a final component: the
substring from the last dot onward, and empty when the name has no dot, when
the only dot is the leading character, or when the name ends with a dot. -/
def py_suffix (nm : String) : String :=
  let r := nm.data.reverse
  let pre := r.takeWhile (fun c => c ≠ '.')
  if pre.length = r.length then ""
  else if pre.length = 0 then ""
  else if pre.length = r.length - 1 then ""
  else ⟨'.' :: pre.reverse⟩

/-- Embedding of lines 126 to 128 of main: the canonical path is computed by
the Python expression joining, onto the source path itself, the parent of the
source path and the part of the source filename before the first question
mark. -/
def new_pathname (pathname : PPath) : PPath :=
  (pathname.join pathname.parent).joinSeg (before_query pathname.name)

/-- Filesystem rename step of line 130, on a filesystem modelled as the list
of existing file paths: every occurrence of the source path becomes the target
path. -/
def rename_fs (fs : List PPath) (src dst : PPath) : List PPath :=
  fs.map (fun q => if q = src then dst else q)

/-- Directory entry as seen through pathlib: the child name together with the
results of the is_dir and is_symlink tests. -/
structure Entry where
  ename : String
  isDir : Bool
  isSymlink : Bool
  deriving DecidableEq, Repr

/-- Child name filter of the glob pattern star: CPython pathlib translates the
pattern through fnmatch, whose star matches every child name, including names
that begin with a dot. -/
def fnmatch_star (_nm : String) : Bool := true

/-- Children returned by glob with the star pattern, in listing order. -/
def glob_star (listing : List Entry) : List Entry :=
  listing.filter (fun e => fnmatch_star e.ename)

/-- Children returned by glob with the star dot dmg pattern: a child name
matches exactly when it ends with the dmg suffix. -/
def glob_dmg (listing : List Entry) : List Entry :=
  listing.filter (fun e => endswith e.ename ".dmg")

/-- Typed error surface of the step.  Every failure in the source is raised as
an autopkglib ProcessorError; the constructors record the distinct failure
sites following the taxonomy of the specification, with messages abbreviated
to the offending value.  The nameError constructor models the unhandled Python
NameError raised by the stale variable reference in the purge loop, which is
not a ProcessorError and is not caught by the handler for OSError. -/
inductive PErr where
  | configurationError (msg : String)
  | missingInputError (pathname : String)
  | cleanupError (failedPath : String)
  | unrecognizedFormatError (filename : String)
  | notFoundError (msg : String)
  | nameError
  deriving DecidableEq, Repr

/-- Embedding of the purge loop of lines 114 to 123: entries are processed in
glob order.  A directory entry that is not a symlink reaches the source call
of shutil.rmtree whose argument is the unbound name path, so the loop raises a
NameError there before touching the filesystem; any other entry is unlinked,
an operating system failure of the unlink being converted to a ProcessorError
naming the entry.  The first result component is the halting error, when any;
the second lists the entries deleted before the loop stopped. -/
def purge_run (os_fail : Entry → Bool) : List Entry → Option PErr × List Entry
  | [] => (none, [])
  | e :: rest =>
    if e.isDir && !e.isSymlink then (some PErr.nameError, [])
    else if os_fail e then (some (PErr.cleanupError e.ename), [])
    else
      let r := purge_run os_fail rest
      (r.1, e :: r.2)

/-- Purge of the destination directory of lines 113 to 123: the loop runs over
the children returned by glob with the star pattern. -/
def purge_destination (os_fail : Entry → Bool) (listing : List Entry) :
    Option PErr × List Entry :=
  purge_run os_fail (glob_star listing)

/-- The EXTNS table of lines 30 to 36 of the source, in insertion order. -/
def EXTNS : List (String × List String) :=
  [("zip", ["zip"]),
   ("tar_gzip", ["tar.gz", "tgz"]),
   ("tar_bzip2", ["tar.bz2", "tbz"]),
   ("tar", ["tar"]),
   ("gzip", ["gzip"])]

/-- Recognized dotted suffix groups of the Format Detector, in the order of
the EXTNS table. -/
def dotted_extns : List (String × List String) :=
  [("zip", [".zip"]),
   ("tar_gzip", [".tar.gz", ".tgz"]),
   ("tar_bzip2", [".tar.bz2", ".tbz"]),
   ("tar", [".tar"]),
   ("gzip", [".gzip"])]

/-- Modelled from the spec: the method get_archive_format is inherited from
autopkglib.Unarchiver and its body is not under src.  Following the Format
Detector contract of the specification, the filename is matched against the
closed ordered lookup of recognized dotted suffix groups derived from the
EXTNS table, and the first, most specific, matching group yields the tag. -/
def get_archive_format (filename : String) : Option String :=
  (dotted_extns.find? (fun g => g.2.any (fun e => endswith filename e))).map
    (fun g => g.1)

/-- Outcome of the format dispatch block of lines 132 to 155 of main. -/
inductive DispatchResult where
  | dmgDirect (dmg_path : String)
  | extractCall (fmt : String) (src : String) (dst : String)
  | failed (e : PErr)
  deriving DecidableEq, Repr

/-- Embedding of lines 132 to 155 of main: a canonical path whose pathlib
suffix is the dmg extension sets dmg_path to its rendered form and skips both
detection and extraction; otherwise the detector runs, the absence of a tag
raises the unrecognized format error naming the filename, the defensive key
check against the EXTNS table runs, and extraction is invoked with the tag,
the rendered source and the rendered destination. -/
def dispatch_format (np dest : PPath) : DispatchResult :=
  if py_suffix np.name = ".dmg" then DispatchResult.dmgDirect (render np)
  else
    match get_archive_format (render np) with
    | none => DispatchResult.failed (PErr.unrecognizedFormatError np.name)
    | some fmt =>
      if (EXTNS.map (fun g => g.1)).contains fmt then
        DispatchResult.extractCall fmt (render np) (render dest)
      else DispatchResult.failed (PErr.configurationError fmt)

/-- Configuration mapping slice read by main: string valued options are none
when absent, while the recipe cache directory and the recipe name are required
keys supplied by the hosting framework. -/
structure Env where
  archive_path : Option String
  pathname : Option String
  destination_path : Option String
  recipe_cache_dir : String
  recipe_name : String
  deriving DecidableEq, Repr

/-- Embedding of env.get with a default value: the stored value wins when the
key is present, even when the stored value is empty. -/
def py_get (v dflt : Option String) : Option String :=
  match v with
  | some s => some s
  | none => dflt

/-- Embedding of pathlib.Path applied to two string arguments, for a second
argument that is a plain relative name. -/
def py_path_join (a b : String) : String := a ++ "/" ++ b

/-- Embedding of lines 93 to 110 of main: the source is read from the
archive_path option, falling back to the pathname option, and a missing or
empty resolved value fails; a resolved source that does not exist on the
filesystem fails; the destination is read from the destination_path option,
defaulting to the recipe cache directory joined with the recipe name.  The
function only reads the environment and the existence oracle. -/
def resolve_inputs (env : Env) (file_exists : String → Bool) :
    Except PErr (String × String) :=
  match py_get env.archive_path env.pathname with
  | none =>
    Except.error
      (PErr.configurationError "Expected a pathname input variable but none is set!")
  | some pn =>
    if pn = "" then
      Except.error
        (PErr.configurationError "Expected a pathname input variable but none is set!")
    else if file_exists pn = false then
      Except.error (PErr.missingInputError pn)
    else
      Except.ok
        (pn, env.destination_path.getD (py_path_join env.recipe_cache_dir env.recipe_name))

/-- Embedding of re.match applied to the pattern built at line 161 from the
recipe name followed by dot star and the escaped dmg suffix, for a recipe name
free of regular expression metacharacters and candidates free of newline
characters: the candidate must start with the recipe name and contain the dmg
suffix somewhere after it. -/
def re_match_name_dmg (recipe_nm candidate : String) : Bool :=
  decide (recipe_nm.data <+: candidate.data) &&
    decide (".dmg".data <:+: candidate.data.drop recipe_nm.data.length)

/-- Combined child filter of the locator loop: the glob pattern keeps children
whose name ends with the dmg suffix, and the loop body keeps those whose name
matches the regular expression. -/
def dmg_child (recipe_nm : String) (e : Entry) : Bool :=
  endswith e.ename ".dmg" && re_match_name_dmg recipe_nm e.ename

/-- Embedding of the locator loop of lines 160 to 165: the first child of the
dmg glob whose name matches the pattern sets dmg_path to its rendered full
path under the destination, and the loop then stops. -/
def locate_result (recipe_nm : String) (dest : PPath) (listing : List Entry) :
    Option String :=
  ((glob_dmg listing).find? (fun e => re_match_name_dmg recipe_nm e.ename)).map
    (fun e => render (dest.joinSeg e.ename))

/-- Embedding of the final check of lines 168 to 171: a missing or empty
dmg_path value is falsy in Python and raises the not found error, and any
other value is the successful result of the step. -/
def dmg_check (dmg_path : Option String) : Except PErr String :=
  match dmg_path with
  | none => Except.error (PErr.notFoundError "Unable to locate a DMG after processing!")
  | some s =>
    if s = "" then
      Except.error (PErr.notFoundError "Unable to locate a DMG after processing!")
    else Except.ok s

/-- Locator stage followed by the final check, threading the dmg_path value
already present in the environment at entry: a located child overwrites it,
and otherwise the entry value is kept. -/
def locate_and_check (recipe_nm : String) (dest : PPath) (listing : List Entry)
    (env_dmg_path : Option String) : Except PErr String :=
  dmg_check
    (match locate_result recipe_nm dest listing with
     | some s => some s
     | none => env_dmg_path)

/-! Helper lemmas about the embedded primitives. -/

theorem endswith_iff (s t : String) : endswith s t = true ↔ t.data <:+ s.data := by
  simp [endswith]

theorem endswith_excl (fn a b : String) (h : endswith fn a = true)
    (h1 : ¬ a.data <:+ b.data) (h2 : ¬ b.data <:+ a.data) : endswith fn b = false := by
  simp only [endswith, decide_eq_true_eq] at h
  simp only [endswith, decide_eq_false_iff_not]
  intro hb
  rcases List.suffix_or_suffix_of_suffix hb h with hs | hs
  · exact h2 hs
  · exact h1 hs

theorem str_ne_empty_of_data (s : String) (h : s.data ≠ []) : s ≠ "" := by
  intro he
  apply h
  rw [he]

theorem endswith_src_ne_empty (nm t : String) (h : endswith nm t = true)
    (ht : t.data ≠ []) : nm ≠ "" := by
  rw [endswith_iff] at h
  apply str_ne_empty_of_data
  intro hd
  rw [hd] at h
  obtain ⟨u, hu⟩ := h
  rcases List.append_eq_nil.mp hu with ⟨-, h2⟩
  exact ht h2

theorem glob_star_eq (listing : List Entry) : glob_star listing = listing := by
  simp [glob_star, fnmatch_star]

theorem purge_run_complete (os_fail : Entry → Bool) :
    ∀ l ds : List Entry, purge_run os_fail l = (none, ds) → ds = l := by
  intro l
  induction l with
  | nil =>
    intro ds h
    simp only [purge_run, Prod.mk.injEq] at h
    exact h.2.symm
  | cons e t ih =>
    intro ds h
    by_cases hd : e.isDir && !e.isSymlink
    · simp [purge_run, hd] at h
    · by_cases ho : os_fail e
      · simp [purge_run, hd, ho] at h
      · simp only [purge_run, hd, ho, if_false, Bool.false_eq_true, Prod.mk.injEq] at h
        obtain ⟨h1, h2⟩ := h
        have hr : purge_run os_fail t = ((purge_run os_fail t).1, (purge_run os_fail t).2) := rfl
        rw [h1] at hr
        have := ih _ hr
        rw [← h2, this]

/-! Claim C1.  The claim states that a purge removes every entry directly
inside the destination, subdirectories recursively, and that any individual
deletion failure aborts with a CleanupError naming the failed path.  The code
cannot do this: the branch of the purge loop for a non symlink directory calls
shutil.rmtree with the unbound name path, a stale variable predating a rename
of the loop variable, so reaching any subdirectory raises a Python NameError,
which neither removes the entry nor produces the documented error.  The
specification itself flags this stale reference as a latent defect, so the
claim describes the intent and the code is wrong: a code bug. -/

/-- Claim C1, behavior of the code at the failing input: purging a destination
holding a regular file and a subdirectory unlinks the file and then halts with
the NameError from the stale variable, so the subdirectory is not removed and
no CleanupError is produced. -/
theorem c1_purge_subdir_hits_stale_variable :
    purge_destination (fun _ => false)
        [⟨"payload.txt", false, false⟩, ⟨"nested", true, false⟩] =
      (some PErr.nameError, [⟨"payload.txt", false, false⟩]) := by
  decide

/-! Claim C9 states that entries whose names begin with a dot are never
enumerated or deleted because the glob pattern star excludes them.  CPython
pathlib translates glob patterns through fnmatch, whose star matches every
child name, dot prefixed names included, so hidden entries are enumerated and
purged like any other entry.  The claim is corrected accordingly. -/

/-- Claim C9, counterexample to the claim as stated: a destination holding one
hidden regular file is enumerated by the glob and the purge deletes the hidden
file, so the hidden entry is not left unchanged. -/
theorem c9_hidden_entry_is_purged_cex :
    starts_dot ".profile" = true ∧
    glob_star [⟨".profile", false, false⟩] = [⟨".profile", false, false⟩] ∧
    purge_destination (fun _ => false) [⟨".profile", false, false⟩] =
      (none, [⟨".profile", false, false⟩]) := by
  refine ⟨by decide, by decide, by decide⟩

/-- Claim C9 as amended: with the purge option set, dot prefixed destination
entries are enumerated by the purge exactly like every other child, because
the glob pattern star matches every child name, and a purge that runs to
completion deletes precisely the enumerated children, hidden ones included. -/
theorem c9_hidden_entries_purged_like_others (listing : List Entry)
    (os_fail : Entry → Bool) :
    glob_star listing = listing ∧
    (∀ ds, purge_destination os_fail listing = (none, ds) → ds = listing) := by
  refine ⟨glob_star_eq listing, ?_⟩
  intro ds h
  have := purge_run_complete os_fail (glob_star listing) ds h
  rw [this, glob_star_eq]

/-- Claim C9 witness: the amended theorem applied to a destination holding a
hidden file and a visible file, with no OS failures, shows the completed purge
deleted exactly both children. -/
theorem c9_hidden_entries_purged_like_others_witness :
    ([⟨".cache", false, false⟩, ⟨"app.bin", false, false⟩] : List Entry) =
      [⟨".cache", false, false⟩, ⟨"app.bin", false, false⟩] :=
  (c9_hidden_entries_purged_like_others
      [⟨".cache", false, false⟩, ⟨"app.bin", false, false⟩] (fun _ => false)).2
    [⟨".cache", false, false⟩, ⟨"app.bin", false, false⟩] (by decide)

/-! Helper lemmas about canonicalization. -/

theorem before_query_data (s : String) :
    (before_query s).data = s.data.takeWhile (fun c => c ≠ '?') := rfl

theorem before_query_of_no_query (s : String) (h : has_query s = false) :
    before_query s = s := by
  have hall : ∀ c ∈ s.data, c ≠ '?' := by
    intro c hc hceq
    rw [has_query] at h
    have := List.any_eq_false.mp h c hc
    simp [hceq] at this
  apply String.ext
  rw [before_query_data, List.takeWhile_eq_self_iff]
  intro x hx
  simpa using hall x hx

theorem before_query_ne_of_query (s : String) (h : has_query s = true) :
    before_query s ≠ s := by
  intro he
  rw [has_query] at h
  obtain ⟨c, hc, hceq⟩ := List.any_eq_true.mp h
  have hcq : c = '?' := by simpa using hceq
  subst hcq
  have hd := congrArg String.data he
  rw [before_query_data, List.takeWhile_eq_self_iff] at hd
  have := hd _ hc
  simp at this

theorem new_pathname_absolute (p : PPath) (habs : p.absolute = true)
    (hne : before_query p.name ≠ "") :
    new_pathname p = ⟨true, p.components.dropLast ++ [before_query p.name]⟩ := by
  unfold new_pathname
  have hj : p.join p.parent = p.parent := by
    simp [PPath.join, PPath.parent, habs]
  rw [hj]
  simp [PPath.joinSeg, hne, PPath.parent, habs]

/-! Claim C2 states that for every source path whose filename contains a
question mark, canonicalization produces a path in the same parent directory
whose filename is the part before the first question mark, and renames the
source there.  The source computes the target by joining, onto the source path
itself, the parent and the trimmed name; pathlib joining discards the left
operand only when the right operand is absolute, so the claim holds only for
absolute source paths (with a nonempty part before the question mark), while
for a relative source the computed target is the source path extended with its
own parent and trimmed name, not a sibling.  The claim is corrected to
absolute source paths. -/

/-- Claim C2, counterexample to the claim as stated: for the relative source
path downloads slash file.dmg question sig equals abc, whose filename does
contain a question mark, the computed canonical path is the source path with
the parent and trimmed name appended, so it does not live in the parent
directory of the source. -/
theorem c2_relative_source_cex :
    has_query (PPath.name ⟨false, ["downloads", "file.dmg?sig=abc"]⟩) = true ∧
    new_pathname ⟨false, ["downloads", "file.dmg?sig=abc"]⟩ =
      ⟨false, ["downloads", "file.dmg?sig=abc", "downloads", "file.dmg"]⟩ ∧
    (new_pathname ⟨false, ["downloads", "file.dmg?sig=abc"]⟩).parent ≠
      PPath.parent ⟨false, ["downloads", "file.dmg?sig=abc"]⟩ := by
  refine ⟨by decide, by decide, by decide⟩

/-- Claim C2 as amended: for every absolute source path whose filename
contains a question mark with a nonempty part before it, the canonical path
lies in the same parent directory, its filename is the part of the original
filename before the first question mark, the canonical path differs from the
source, and the rename moves the file from the source path to the canonical
path. -/
theorem c2_canonicalize_strips_query (p : PPath) (fs : List PPath)
    (habs : p.absolute = true) (hq : has_query p.name = true)
    (hne : before_query p.name ≠ "") :
    (new_pathname p).parent = p.parent ∧
    (new_pathname p).name = before_query p.name ∧
    new_pathname p ≠ p ∧
    (p ∈ fs → new_pathname p ∈ rename_fs fs p (new_pathname p) ∧
      p ∉ rename_fs fs p (new_pathname p)) := by
  have hnp := new_pathname_absolute p habs hne
  have hdiff : new_pathname p ≠ p := by
    intro he
    have hn : (new_pathname p).name = p.name := by rw [he]
    rw [hnp] at hn
    simp only [PPath.name, List.getLast?_concat, Option.getD_some] at hn
    exact before_query_ne_of_query p.name hq hn
  refine ⟨?_, ?_, hdiff, ?_⟩
  · rw [hnp]
    simp [PPath.parent, List.dropLast_concat, habs]
  · rw [hnp]
    simp [PPath.name, List.getLast?_concat]
  · intro hmem
    constructor
    · exact List.mem_map.mpr ⟨p, hmem, by simp⟩
    · intro hmem2
      obtain ⟨q, hq2, hq3⟩ := List.mem_map.mp hmem2
      by_cases hqp : q = p
      · rw [if_pos hqp] at hq3
        exact hdiff hq3
      · rw [if_neg hqp] at hq3
        exact hqp hq3

/-- Claim C2 witness: the amended theorem applied to the absolute source path
tmp slash app.dmg question sig equals abc, present on the filesystem, shows
the canonical path keeps the parent and carries the trimmed filename. -/
theorem c2_canonicalize_strips_query_witness :
    (new_pathname ⟨true, ["tmp", "app.dmg?sig=abc"]⟩).parent =
      PPath.parent ⟨true, ["tmp", "app.dmg?sig=abc"]⟩ ∧
    (new_pathname ⟨true, ["tmp", "app.dmg?sig=abc"]⟩).name =
      before_query (PPath.name ⟨true, ["tmp", "app.dmg?sig=abc"]⟩) ∧
    new_pathname ⟨true, ["tmp", "app.dmg?sig=abc"]⟩ ∈
      rename_fs [⟨true, ["tmp", "app.dmg?sig=abc"]⟩] ⟨true, ["tmp", "app.dmg?sig=abc"]⟩
        (new_pathname ⟨true, ["tmp", "app.dmg?sig=abc"]⟩) := by
  have h := c2_canonicalize_strips_query ⟨true, ["tmp", "app.dmg?sig=abc"]⟩
    [⟨true, ["tmp", "app.dmg?sig=abc"]⟩] (by decide) (by decide) (by decide)
  exact ⟨h.1, h.2.1, (h.2.2.2 (by simp)).1⟩

/-! Claim C7 states that canonicalization is a no-op for every source path
whose filename has no question mark.  As with claim C2, the joining expression
only collapses onto the parent for absolute source paths: a relative source
yields a different, longer path even with no question mark in the filename.
The claim is corrected to absolute source paths, on which the computed
canonical path equals the source and the rename leaves the filesystem
unchanged. -/

/-- Claim C7, counterexample to the claim as stated: for the relative source
path builds slash f.zip, whose filename has no question mark, the computed
canonical path differs from the source path. -/
theorem c7_relative_source_cex :
    has_query (PPath.name ⟨false, ["builds", "f.zip"]⟩) = false ∧
    new_pathname ⟨false, ["builds", "f.zip"]⟩ ≠ ⟨false, ["builds", "f.zip"]⟩ ∧
    new_pathname ⟨false, ["builds", "f.zip"]⟩ =
      ⟨false, ["builds", "f.zip", "builds", "f.zip"]⟩ := by
  refine ⟨by decide, by decide, by decide⟩

/-- Claim C7 as amended: for every absolute source path, with well formed
nonempty components, whose filename contains no question mark, canonicalization
is a no-op: the computed canonical path equals the source path and the rename
leaves the filesystem unchanged. -/
theorem c7_no_query_noop (p : PPath) (fs : List PPath)
    (habs : p.absolute = true) (hq : has_query p.name = false)
    (hw : "" ∉ p.components) :
    new_pathname p = p ∧ rename_fs fs p (new_pathname p) = fs := by
  have hbq : before_query p.name = p.name := before_query_of_no_query p.name hq
  have hself : new_pathname p = p := by
    obtain ⟨ab, comps⟩ := p
    have hab : ab = true := habs
    subst hab
    rcases hcc : comps with _ | ⟨a, t⟩
    · subst hcc
      decide
    · subst hcc
      have hcne : a :: t ≠ ([] : List String) := List.cons_ne_nil a t
      have hnne : PPath.name ⟨true, a :: t⟩ ≠ "" := by
        simp only [PPath.name, List.getLast?_eq_getLast _ hcne, Option.getD_some]
        intro hg
        apply hw
        rw [← hg]
        exact List.getLast_mem hcne
      unfold new_pathname
      have hj : PPath.join ⟨true, a :: t⟩ (PPath.parent ⟨true, a :: t⟩) =
          PPath.parent ⟨true, a :: t⟩ := by
        simp [PPath.join, PPath.parent]
      rw [hj, hbq, PPath.joinSeg, if_neg hnne]
      simp only [PPath.parent, PPath.name, List.getLast?_eq_getLast _ hcne,
        Option.getD_some, PPath.mk.injEq, true_and]
      exact List.dropLast_append_getLast hcne
  refine ⟨hself, ?_⟩
  rw [hself]
  have hfun : (fun q => if q = p then p else q) = fun q => q := by
    funext q
    by_cases hqp : q = p
    · simp [hqp]
    · simp [hqp]
  simp [rename_fs, hfun]

/-- Claim C7 witness: the amended theorem applied to the absolute,
well formed, query free source path cache slash bundle.tar.gz, on a
filesystem holding exactly that file. -/
theorem c7_no_query_noop_witness :
    new_pathname ⟨true, ["cache", "bundle.tar.gz"]⟩ = ⟨true, ["cache", "bundle.tar.gz"]⟩ ∧
    rename_fs [⟨true, ["cache", "bundle.tar.gz"]⟩] ⟨true, ["cache", "bundle.tar.gz"]⟩
        (new_pathname ⟨true, ["cache", "bundle.tar.gz"]⟩) =
      [⟨true, ["cache", "bundle.tar.gz"]⟩] :=
  c7_no_query_noop ⟨true, ["cache", "bundle.tar.gz"]⟩
    [⟨true, ["cache", "bundle.tar.gz"]⟩] (by decide) (by decide) (by decide)

/-! Helper lemmas about suffixes and rendering. -/

theorem dotted_extns_eq_map :
    dotted_extns = EXTNS.map (fun g => (g.1, g.2.map (fun e => "." ++ e))) := by
  decide

theorem takeWhile_stop_prefix (c0 : Char) :
    ∀ l : List Char, (l.takeWhile (fun c => c ≠ c0)).length ≠ l.length →
      l.takeWhile (fun c => c ≠ c0) ++ [c0] <+: l := by
  intro l
  induction l with
  | nil =>
    intro h
    simp at h
  | cons a t ih =>
    intro h
    by_cases ha : a = c0
    · subst ha
      rw [List.takeWhile_cons_of_neg (by simp)]
      exact ⟨t, rfl⟩
    · rw [List.takeWhile_cons_of_pos (by simp [ha])] at h ⊢
      have h2 : (t.takeWhile (fun c => c ≠ c0)).length ≠ t.length := by
        simpa using h
      obtain ⟨u, hu⟩ := ih h2
      refine ⟨u, ?_⟩
      simp only [List.cons_append]
      rw [hu]

theorem suffix_after_last_dot (l : List Char)
    (h : ¬ (l.reverse.takeWhile (fun c => c ≠ '.')).length = l.reverse.length) :
    ('.' :: (l.reverse.takeWhile (fun c => c ≠ '.')).reverse) <:+ l := by
  have hstop := takeWhile_stop_prefix '.' l.reverse h
  have hs := List.reverse_suffix.mpr hstop
  rw [List.reverse_reverse] at hs
  simpa using hs

theorem py_suffix_endswith (nm : String) :
    py_suffix nm = "" ∨ endswith nm (py_suffix nm) = true := by
  simp only [py_suffix]
  split
  next h1 =>
    left
    rfl
  next h1 =>
    split
    next h2 =>
      left
      rfl
    next h2 =>
      split
      next h3 =>
        left
        rfl
      next h3 =>
        right
        rw [endswith_iff]
        exact suffix_after_last_dot nm.data h1

theorem py_suffix_dmg_endswith (nm : String) (h : py_suffix nm = ".dmg") :
    endswith nm ".dmg" = true := by
  rcases py_suffix_endswith nm with h0 | h0
  · rw [h] at h0
    exact absurd h0 (by decide)
  · rw [h] at h0
    exact h0

theorem name_ne_empty_components (p : PPath) (h : p.name ≠ "") :
    p.components ≠ [] := by
  intro hc
  apply h
  simp [PPath.name, hc]

theorem joinComps_concat_ne_empty (l : List String) (s : String) (h : s ≠ "") :
    joinComps (l ++ [s]) ≠ "" := by
  cases l with
  | nil => simpa [joinComps] using h
  | cons a t =>
    rcases ht : t ++ [s] with _ | ⟨b, u⟩
    · exact absurd ht (by simp)
    · have hsplit : (a :: t) ++ [s] = a :: b :: u := by
        rw [List.cons_append, ht]
      rw [hsplit, joinComps]
      apply str_ne_empty_of_data
      have hd : ("/" : String).data = ['/'] := by decide
      simp [String.data_append, hd]

theorem render_ne_empty (p : PPath) (h : p.name ≠ "") : render p ≠ "" := by
  have hcne : p.components ≠ [] := name_ne_empty_components p h
  have hdecomp : p.components.dropLast ++ [p.components.getLast hcne] = p.components :=
    List.dropLast_append_getLast hcne
  have hlast : p.components.getLast hcne = p.name := by
    simp [PPath.name, List.getLast?_eq_getLast _ hcne]
  unfold render
  by_cases hab : p.absolute = true
  · simp only [hab, if_true]
    apply str_ne_empty_of_data
    have hd : ("/" : String).data = ['/'] := by decide
    simp [String.data_append, hd]
  · simp only [hab, if_false, hcne]
    rw [← hdecomp]
    apply joinComps_concat_ne_empty
    rw [hlast]
    exact h

/-! Claim C5.  The detector is the inherited get_archive_format, modelled from
the specification; the claim is settled against that model.  Every recognized
dotted suffix group yields exactly its tag, and a filename ending in tar.gz or
tgz always yields the tar_gzip tag, never plain gzip or tar. -/

/-- Claim C5: for every filename ending in a recognized suffix group the
detector returns exactly the corresponding tag; in particular tar.gz and tgz
filenames are classified as tar_gzip, never as plain gzip or tar. -/
theorem c5_format_detection (fn : String) :
    (endswith fn ".zip" = true → get_archive_format fn = some "zip") ∧
    ((endswith fn ".tar.gz" = true ∨ endswith fn ".tgz" = true) →
      get_archive_format fn = some "tar_gzip") ∧
    ((endswith fn ".tar.bz2" = true ∨ endswith fn ".tbz" = true) →
      get_archive_format fn = some "tar_bzip2") ∧
    (endswith fn ".tar" = true → get_archive_format fn = some "tar") ∧
    (endswith fn ".gzip" = true → get_archive_format fn = some "gzip") := by
  refine ⟨?_, ?_, ?_, ?_, ?_⟩
  · intro h
    simp [get_archive_format, dotted_extns, List.find?, h]
  · rintro (h | h)
    · have e1 := endswith_excl fn ".tar.gz" ".zip" h (by decide) (by decide)
      simp [get_archive_format, dotted_extns, List.find?, h, e1]
    · have e1 := endswith_excl fn ".tgz" ".zip" h (by decide) (by decide)
      have e2 := endswith_excl fn ".tgz" ".tar.gz" h (by decide) (by decide)
      simp [get_archive_format, dotted_extns, List.find?, h, e1, e2]
  · rintro (h | h)
    · have e1 := endswith_excl fn ".tar.bz2" ".zip" h (by decide) (by decide)
      have e2 := endswith_excl fn ".tar.bz2" ".tar.gz" h (by decide) (by decide)
      have e3 := endswith_excl fn ".tar.bz2" ".tgz" h (by decide) (by decide)
      simp [get_archive_format, dotted_extns, List.find?, h, e1, e2, e3]
    · have e1 := endswith_excl fn ".tbz" ".zip" h (by decide) (by decide)
      have e2 := endswith_excl fn ".tbz" ".tar.gz" h (by decide) (by decide)
      have e3 := endswith_excl fn ".tbz" ".tgz" h (by decide) (by decide)
      have e4 := endswith_excl fn ".tbz" ".tar.bz2" h (by decide) (by decide)
      simp [get_archive_format, dotted_extns, List.find?, h, e1, e2, e3, e4]
  · intro h
    have e1 := endswith_excl fn ".tar" ".zip" h (by decide) (by decide)
    have e2 := endswith_excl fn ".tar" ".tar.gz" h (by decide) (by decide)
    have e3 := endswith_excl fn ".tar" ".tgz" h (by decide) (by decide)
    have e4 := endswith_excl fn ".tar" ".tar.bz2" h (by decide) (by decide)
    have e5 := endswith_excl fn ".tar" ".tbz" h (by decide) (by decide)
    simp [get_archive_format, dotted_extns, List.find?, h, e1, e2, e3, e4, e5]
  · intro h
    have e1 := endswith_excl fn ".gzip" ".zip" h (by decide) (by decide)
    have e2 := endswith_excl fn ".gzip" ".tar.gz" h (by decide) (by decide)
    have e3 := endswith_excl fn ".gzip" ".tgz" h (by decide) (by decide)
    have e4 := endswith_excl fn ".gzip" ".tar.bz2" h (by decide) (by decide)
    have e5 := endswith_excl fn ".gzip" ".tbz" h (by decide) (by decide)
    have e6 := endswith_excl fn ".gzip" ".tar" h (by decide) (by decide)
    simp [get_archive_format, dotted_extns, List.find?, h, e1, e2, e3, e4, e5, e6]

/-- Claim C5 witness: the detector evaluated through the theorem at one
concrete filename per recognized suffix. -/
theorem c5_format_detection_witness :
    get_archive_format "b.zip" = some "zip" ∧
    get_archive_format "b.tar.gz" = some "tar_gzip" ∧
    get_archive_format "b.tgz" = some "tar_gzip" ∧
    get_archive_format "b.tar.bz2" = some "tar_bzip2" ∧
    get_archive_format "b.tbz" = some "tar_bzip2" ∧
    get_archive_format "b.tar" = some "tar" ∧
    get_archive_format "b.gzip" = some "gzip" :=
  ⟨(c5_format_detection "b.zip").1 (by decide),
   (c5_format_detection "b.tar.gz").2.1 (Or.inl (by decide)),
   (c5_format_detection "b.tgz").2.1 (Or.inr (by decide)),
   (c5_format_detection "b.tar.bz2").2.2.1 (Or.inl (by decide)),
   (c5_format_detection "b.tbz").2.2.1 (Or.inr (by decide)),
   (c5_format_detection "b.tar").2.2.2.1 (by decide),
   (c5_format_detection "b.gzip").2.2.2.2 (by decide)⟩

/-! Claim C4: a canonical filename that does not end in the dmg extension and
matches no recognized archive suffix fails with the unrecognized format error
naming the filename, and no extraction is attempted.  The detector is the
spec modelled get_archive_format. -/

/-- Claim C4: when the canonical filename does not end in dmg and the rendered
canonical path ends in none of the recognized dotted suffixes, the dispatch
fails with the unrecognized format error naming the filename and never reaches
the extraction call. -/
theorem c4_unrecognized_format (p dest : PPath)
    (hdmg : endswith p.name ".dmg" = false)
    (hnone : ∀ s ∈ [".zip", ".tar.gz", ".tgz", ".tar.bz2", ".tbz", ".tar", ".gzip"],
      endswith (render p) s = false) :
    dispatch_format p dest = DispatchResult.failed (PErr.unrecognizedFormatError p.name) ∧
    ∀ fmt src dst, dispatch_format p dest ≠ DispatchResult.extractCall fmt src dst := by
  have hsfx : ¬ py_suffix p.name = ".dmg" := by
    intro h
    rw [py_suffix_dmg_endswith p.name h] at hdmg
    exact Bool.true_eq_false.mp hdmg
  have hga : get_archive_format (render p) = none := by
    have e1 := hnone ".zip" (by simp)
    have e2 := hnone ".tar.gz" (by simp)
    have e3 := hnone ".tgz" (by simp)
    have e4 := hnone ".tar.bz2" (by simp)
    have e5 := hnone ".tbz" (by simp)
    have e6 := hnone ".tar" (by simp)
    have e7 := hnone ".gzip" (by simp)
    simp [get_archive_format, dotted_extns, List.find?, e1, e2, e3, e4, e5, e6, e7]
  constructor
  · simp [dispatch_format, hsfx, hga]
  · intro fmt src dst
    simp [dispatch_format, hsfx, hga]

/-- Claim C4 witness: the theorem applied to the canonical path cache slash
file.rar, which matches no recognized suffix and is not a disk image. -/
theorem c4_unrecognized_format_witness :
    dispatch_format ⟨true, ["cache", "file.rar"]⟩ ⟨true, ["cache", "App"]⟩ =
      DispatchResult.failed (PErr.unrecognizedFormatError "file.rar") :=
  (c4_unrecognized_format ⟨true, ["cache", "file.rar"]⟩ ⟨true, ["cache", "App"]⟩
    (by decide) (by decide)).1

/-! Claim C6: a canonical filename with the dmg extension short circuits the
dispatch: the result is the canonical path itself, detection is skipped and
the extraction delegate is never invoked, and the final check accepts the
nonempty rendered path. -/

/-- Claim C6: when the pathlib suffix of the canonical filename is the dmg
extension, the dispatch yields the rendered canonical path directly, never
produces an extraction call, and the final check succeeds on that path. -/
theorem c6_dmg_direct (p dest : PPath) (h : py_suffix p.name = ".dmg") :
    dispatch_format p dest = DispatchResult.dmgDirect (render p) ∧
    (∀ fmt src dst, dispatch_format p dest ≠ DispatchResult.extractCall fmt src dst) ∧
    dmg_check (some (render p)) = Except.ok (render p) := by
  have h1 : dispatch_format p dest = DispatchResult.dmgDirect (render p) := by
    simp [dispatch_format, h]
  have hrne : render p ≠ "" := by
    have hend : endswith p.name ".dmg" = true := py_suffix_dmg_endswith p.name h
    have hnne : p.name ≠ "" := endswith_src_ne_empty p.name ".dmg" hend (by decide)
    exact render_ne_empty p hnne
  refine ⟨h1, ?_, ?_⟩
  · intro fmt src dst
    rw [h1]
    simp
  · simp [dmg_check, hrne]

/-- Claim C6 witness: the theorem applied to the canonical path cache slash
app-installer.dmg, matching the scenario of the specification. -/
theorem c6_dmg_direct_witness :
    dispatch_format ⟨true, ["cache", "app-installer.dmg"]⟩ ⟨true, ["cache", "App"]⟩ =
      DispatchResult.dmgDirect (render ⟨true, ["cache", "app-installer.dmg"]⟩) ∧
    dmg_check (some (render ⟨true, ["cache", "app-installer.dmg"]⟩)) =
      Except.ok (render ⟨true, ["cache", "app-installer.dmg"]⟩) := by
  have h := c6_dmg_direct ⟨true, ["cache", "app-installer.dmg"]⟩ ⟨true, ["cache", "App"]⟩
    (by decide)
  exact ⟨h.1, h.2.2⟩

/-! Helper lemmas about the locator. -/

theorem find?_filter {α : Type} (p f : α → Bool) (l : List α) :
    (l.filter f).find? p = l.find? (fun x => f x && p x) := by
  induction l with
  | nil => rfl
  | cons a t ih =>
    by_cases h : f a
    · by_cases h2 : p a <;> simp [List.filter_cons, List.find?, h, h2, ih]
    · simp [List.filter_cons, List.find?, h, ih, Bool.false_and]

theorem find?_append_first {α : Type} (p : α → Bool) :
    ∀ (l₁ : List α) (e : α) (l₂ : List α), p e = true → (∀ x ∈ l₁, p x = false) →
      (l₁ ++ e :: l₂).find? p = some e := by
  intro l₁
  induction l₁ with
  | nil =>
    intro e l₂ he h1
    simp [List.find?, he]
  | cons a t ih =>
    intro e l₂ he h1
    have ha := h1 a (by simp)
    rw [List.cons_append]
    rw [List.find?_cons_of_neg _ (by simp [ha])]
    exact ih e l₂ he (fun x hx => h1 x (by simp [hx]))

theorem locate_result_eq_find (recipe_nm : String) (dest : PPath) (listing : List Entry) :
    locate_result recipe_nm dest listing =
      (listing.find? (dmg_child recipe_nm)).map (fun e => render (dest.joinSeg e.ename)) := by
  unfold locate_result glob_dmg
  rw [find?_filter]
  rfl

theorem dmg_child_name_ne (recipe_nm : String) (e : Entry)
    (h : dmg_child recipe_nm e = true) : e.ename ≠ "" := by
  have hend : endswith e.ename ".dmg" = true := by
    simp only [dmg_child, Bool.and_eq_true] at h
    exact h.1
  exact endswith_src_ne_empty e.ename ".dmg" hend (by decide)

theorem render_joinSeg_ne_empty (dest : PPath) (s : String) (h : s ≠ "") :
    render (dest.joinSeg s) ≠ "" := by
  have hn : (dest.joinSeg s).name = s := by
    unfold PPath.joinSeg
    rw [if_neg h]
    simp [PPath.name, List.getLast?_concat]
  apply render_ne_empty
  rw [hn]
  exact h

/-! Claim C3: on a fresh invocation, with no dmg_path value in the environment
at entry, the locator searches only the immediate children of the destination,
keeping those whose name ends in dmg and matches the recipe name followed by
anything; the first match in listing order becomes the result, and with no
match the step fails with the not found error.  The fresh entry environment is
made explicit because a pre-existing dmg_path value changes the no-match
outcome, which is the subject of claim C10. -/

/-- Claim C3: on a fresh invocation the locator stage returns the rendered
path of the first matching child in listing order, and fails with the not
found error when no child matches. -/
theorem c3_locate_first_match_or_not_found (recipe_nm : String) (dest : PPath)
    (listing : List Entry) :
    ((∀ e ∈ listing, dmg_child recipe_nm e = false) →
      locate_and_check recipe_nm dest listing none =
        Except.error (PErr.notFoundError "Unable to locate a DMG after processing!")) ∧
    (∀ (l₁ : List Entry) (e : Entry) (l₂ : List Entry), listing = l₁ ++ e :: l₂ →
      dmg_child recipe_nm e = true → (∀ x ∈ l₁, dmg_child recipe_nm x = false) →
      locate_and_check recipe_nm dest listing none =
        Except.ok (render (dest.joinSeg e.ename))) := by
  constructor
  · intro hnone
    have hfind : listing.find? (dmg_child recipe_nm) = none :=
      List.find?_eq_none.mpr (fun x hx => by simp [hnone x hx])
    unfold locate_and_check
    rw [locate_result_eq_find, hfind]
    rfl
  · intro l₁ e l₂ hsplit he hprev
    have hfind : listing.find? (dmg_child recipe_nm) = some e := by
      rw [hsplit]
      exact find?_append_first _ l₁ e l₂ he hprev
    have hne := render_joinSeg_ne_empty dest e.ename (dmg_child_name_ne recipe_nm e he)
    unfold locate_and_check
    rw [locate_result_eq_find, hfind]
    simp [dmg_check, hne]

/-- Claim C3 witness: the theorem applied to a destination without any
matching child, giving the not found error, and to a destination whose second
child matches the recipe name, giving that child. -/
theorem c3_locate_first_match_or_not_found_witness :
    locate_and_check "MyApp" ⟨true, ["cache", "MyApp"]⟩
        [⟨"notes.txt", false, false⟩] none =
      Except.error (PErr.notFoundError "Unable to locate a DMG after processing!") ∧
    locate_and_check "MyApp" ⟨true, ["cache", "MyApp"]⟩
        [⟨"notes.txt", false, false⟩, ⟨"MyApp-1.2.dmg", false, false⟩] none =
      Except.ok (render (PPath.joinSeg ⟨true, ["cache", "MyApp"]⟩ "MyApp-1.2.dmg")) :=
  ⟨(c3_locate_first_match_or_not_found "MyApp" ⟨true, ["cache", "MyApp"]⟩
      [⟨"notes.txt", false, false⟩]).1 (by decide),
   (c3_locate_first_match_or_not_found "MyApp" ⟨true, ["cache", "MyApp"]⟩
      [⟨"notes.txt", false, false⟩, ⟨"MyApp-1.2.dmg", false, false⟩]).2
     [⟨"notes.txt", false, false⟩] ⟨"MyApp-1.2.dmg", false, false⟩ []
     (by decide) (by decide) (by decide)⟩

/-! Claim C10: when the environment already carries a nonempty dmg_path value
at entry, the final check is satisfied by that value even when the locator
matches nothing, so the step never raises the not found error and reports the
stale path as its result. -/

/-- Claim C10: with a nonempty dmg_path value already in the environment, the
locator stage always succeeds, and when no child matches it reports exactly
the stale pre-existing path. -/
theorem c10_stale_dmg_path_wins (recipe_nm : String) (dest : PPath)
    (listing : List Entry) (s : String) (hs : s ≠ "") :
    (∃ r, locate_and_check recipe_nm dest listing (some s) = Except.ok r) ∧
    ((∀ e ∈ listing, dmg_child recipe_nm e = false) →
      locate_and_check recipe_nm dest listing (some s) = Except.ok s) := by
  constructor
  · rcases hfind : listing.find? (dmg_child recipe_nm) with _ | e
    · refine ⟨s, ?_⟩
      unfold locate_and_check
      rw [locate_result_eq_find, hfind]
      simp [dmg_check, hs]
    · have he : dmg_child recipe_nm e = true := List.find?_some hfind
      have hne := render_joinSeg_ne_empty dest e.ename (dmg_child_name_ne recipe_nm e he)
      refine ⟨render (dest.joinSeg e.ename), ?_⟩
      unfold locate_and_check
      rw [locate_result_eq_find, hfind]
      simp [dmg_check, hne]
  · intro hnone
    have hfind : listing.find? (dmg_child recipe_nm) = none :=
      List.find?_eq_none.mpr (fun x hx => by simp [hnone x hx])
    unfold locate_and_check
    rw [locate_result_eq_find, hfind]
    simp [dmg_check, hs]

/-- Claim C10 witness: the theorem applied to a destination with no matching
child and a stale nonempty dmg_path value, which the step reports as its
successful result. -/
theorem c10_stale_dmg_path_wins_witness :
    locate_and_check "MyApp" ⟨true, ["cache", "MyApp"]⟩ [⟨"readme.txt", false, false⟩]
        (some "/stale/MyApp-0.9.dmg") = Except.ok "/stale/MyApp-0.9.dmg" :=
  (c10_stale_dmg_path_wins "MyApp" ⟨true, ["cache", "MyApp"]⟩
    [⟨"readme.txt", false, false⟩] "/stale/MyApp-0.9.dmg" (by decide)).2 (by decide)

/-! Claim C8: the input resolution stage fails with a ConfigurationError when
both the pathname option and its archive_path alias are absent, fails with a
MissingInputError when the resolved source path does not exist, and defaults
the destination to the recipe cache directory joined with the recipe name.
The stage is embedded as a pure function of the environment and an existence
oracle, so it performs no writes. -/

/-- Claim C8: absence of both source path options yields the configuration
error; a present, nonexistent source yields the missing input error naming the
source; a present, existing source with no destination option resolves to the
source together with the default destination, the cache directory joined with
the recipe name. -/
theorem c8_input_resolution (env : Env) (file_exists : String → Bool) :
    ((env.archive_path = none ∧ env.pathname = none) →
      resolve_inputs env file_exists =
        Except.error
          (PErr.configurationError "Expected a pathname input variable but none is set!")) ∧
    (∀ pn, py_get env.archive_path env.pathname = some pn → pn ≠ "" →
      file_exists pn = false →
      resolve_inputs env file_exists = Except.error (PErr.missingInputError pn)) ∧
    (∀ pn, py_get env.archive_path env.pathname = some pn → pn ≠ "" →
      file_exists pn = true → env.destination_path = none →
      resolve_inputs env file_exists =
        Except.ok (pn, py_path_join env.recipe_cache_dir env.recipe_name)) := by
  refine ⟨?_, ?_, ?_⟩
  · rintro ⟨h1, h2⟩
    unfold resolve_inputs
    rw [show py_get env.archive_path env.pathname = none by simp [py_get, h1, h2]]
  · intro pn hpn hne hfe
    unfold resolve_inputs
    rw [hpn]
    simp [hne, hfe]
  · intro pn hpn hne hfe hdest
    unfold resolve_inputs
    rw [hpn]
    simp [hne, hfe, hdest]

/-- Claim C8 witness: the theorem applied to three concrete environments, one
with both source options absent, one whose source is absent from the
filesystem, and one whose source exists and whose destination defaults. -/
theorem c8_input_resolution_witness :
    resolve_inputs ⟨none, none, none, "/cache", "MyApp"⟩ (fun _ => false) =
      Except.error
        (PErr.configurationError "Expected a pathname input variable but none is set!") ∧
    resolve_inputs ⟨none, some "/dl/pkg.zip", none, "/cache", "MyApp"⟩ (fun _ => false) =
      Except.error (PErr.missingInputError "/dl/pkg.zip") ∧
    resolve_inputs ⟨none, some "/dl/pkg.zip", none, "/cache", "MyApp"⟩ (fun _ => true) =
      Except.ok ("/dl/pkg.zip", py_path_join "/cache" "MyApp") :=
  ⟨(c8_input_resolution ⟨none, none, none, "/cache", "MyApp"⟩ (fun _ => false)).1 ⟨rfl, rfl⟩,
   (c8_input_resolution ⟨none, some "/dl/pkg.zip", none, "/cache", "MyApp"⟩
      (fun _ => false)).2.1 "/dl/pkg.zip" rfl (by decide) rfl,
   (c8_input_resolution ⟨none, some "/dl/pkg.zip", none, "/cache", "MyApp"⟩
      (fun _ => true)).2.2 "/dl/pkg.zip" rfl (by decide) rfl rfl⟩

end HudlFileManager
